import Mathlib

/-!
Verification of the SongBuddy backend discovery-feed ranking pipeline
(`GET /api/posts/discovery` in `src/routes/postRoutes.ts`).

The handler is embedded shallowly:
* Mongo documents become Lean structures (`DbUser`, `DbPost`); the database is a
  `Db` value holding the two collections in insertion order.
* JavaScript numbers are modelled as `ℚ` (timestamps in milliseconds, scores)
  and `Int`/`ℕ` (parsed pagination values, lengths).  `Math.log` is abstracted
  as a function parameter `jsLog : ℚ → ℚ` (the natural logarithm), since no
  verified property depends on its values.
* `Math.random()` draws are passed in explicitly: `randFactors : ℕ → ℚ` gives
  the per-candidate randomness factor (indexed by candidate position) and
  `shuffleRnd : ℕ → ℕ` gives, for loop index `i`, the draw used to build
  `j = Math.floor(Math.random() * (i + 1))`; the model takes `j = shuffleRnd i % (i + 1)`,
  which ranges over exactly the same set `[0, i]`.
* `Array.prototype.sort` (stable, per the ECMAScript spec) with comparator
  `(a, b) => b.engagementScore - a.engagementScore` is modelled as a stable
  insertion sort with the strict relation "has strictly larger score": a stable
  comparison sort with that comparator produces exactly this list.  The Mongo
  `.sort({createdAt: -1})` is modelled the same way on `createdAt`.
* Fallible steps return `Except DiscoveryError`.
-/

namespace SongBuddy

/-- A user document as used by the discovery handler: `oid` is the Mongo `_id`
(the foreign-key space used by `following`), `id` the application-level string
id, `followers`/`following` hold `_id` references. -/
structure DbUser where
  oid : String
  id : String
  displayName : String
  username : String
  profilePicture : String
  followers : List String
  following : List String
deriving DecidableEq

/-- A post document as used by the discovery handler.  `userId` is the author's
application-level string id; `likes` is the list of liker ids; `createdAt` and
`updatedAt` are millisecond timestamps. -/
structure DbPost where
  id : String
  userId : String
  username : String
  songName : String
  artistName : String
  songImage : String
  description : String
  likes : List String
  createdAt : ℚ
  updatedAt : ℚ
deriving DecidableEq

/-- The database snapshot the handler reads: the `users` and `posts`
collections, in insertion order. -/
structure Db where
  users : List DbUser
  posts : List DbPost

/-- JS `v || d` applied to a `parseInt` result: `none` models `NaN`
(unparseable input) and `0` is falsy, so both fall back to the default. -/
def jsOrDefault (v : Option Int) (d : Int) : Int :=
  match v with
  | none => d
  | some n => if n = 0 then d else n

/-- `const limitNum = Math.min(parseInt(limit as string) || 20, 50)`. -/
def limitNumOf (limitParam : Option Int) : Int :=
  min (jsOrDefault limitParam 20) 50

/-- `const pageNum = Math.max(parseInt(page as string) || 1, 1)`. -/
def pageNumOf (pageParam : Option Int) : Int :=
  max (jsOrDefault pageParam 1) 1

/-- JS `a || b` on strings: the empty string is falsy. -/
def jsOrString (a b : String) : String :=
  if a = "" then b else a

/-- `Array.prototype.slice(0, e)`: a negative end index counts from the end of
the array, clamped at 0. -/
def jsSliceTo (e : Int) (l : List α) : List α :=
  if e < 0 then l.take (l.length - e.natAbs) else l.take e.toNat

/-- Mongo cursor `.limit(n)`: a negative argument behaves like its absolute
value (with the cursor closed early).  The handler always passes
`limitNum * 3 ≠ 0`, so the `n = 0` (no limit) case is unreachable. -/
def mongoLimit (n : Int) (l : List α) : List α :=
  l.take n.natAbs

/-- `Math.ceil(n * 0.3)` for an array length `n`.  For every length that can
occur (far below 2^50), the double rounding of `n * 0.3` stays strictly inside
`(⌈3n/10⌉ - 1, ⌈3n/10⌉]`, so the result is exactly `⌈3n/10⌉ = (3n + 9) / 10`. -/
def jsCeil3Tenths (n : ℕ) : ℕ :=
  (3 * n + 9) / 10

/-- `Math.ceil(a / b)` for a non-negative numerator `a` and nonzero `b` (the
handler divides the total count by `limitNum ≠ 0`). -/
def jsMathCeilDiv (a : ℕ) (b : Int) : Int :=
  if 0 < b then Int.ediv ((a : Int) + b - 1) b
  else if b < 0 then -(Int.ediv (a : Int) (-b))
  else 0

/-- `(Date.now() - new Date(post.createdAt).getTime()) / (1000 * 60 * 60)`. -/
def hoursSinceCreated (now createdAt : ℚ) : ℚ :=
  (now - createdAt) / (1000 * 60 * 60)

/-- `Math.max(0, 48 - hoursSinceCreated) / 48` — decay over 48 hours. -/
def recencyScore (now createdAt : ℚ) : ℚ :=
  max 0 (48 - hoursSinceCreated now createdAt) / 48

/-- The engagement score of one candidate post, translated from the handler:
likes weight 1.0, log-popularity weight 0.5, freshness weight 3.0, randomness
weight 1.0.  `jsLog` abstracts `Math.log` and `rand` the `Math.random()` draw. -/
def engagementScore (jsLog : ℚ → ℚ) (likes userFollowers : ℕ)
    (now createdAt rand : ℚ) : ℚ :=
  let baseEngagement := (likes : ℚ) * 1
  let userPopularity := jsLog ((userFollowers : ℚ) + 1) * 0.5
  let freshnessBonus := recencyScore now createdAt * 3
  let randomnessFactor := rand * 1
  baseEngagement + userPopularity + freshnessBonus + randomnessFactor

/-- A candidate post together with its computed engagement score
(`{...post.toObject(), engagementScore, debugInfo}`; the `debugInfo` block just
repeats the summands and is read by nothing downstream, so it is omitted). -/
structure ScoredPost where
  post : DbPost
  engagementScore : ℚ
deriving DecidableEq

/-- Comparator order of `sort((a, b) => b.engagementScore - a.engagementScore)`:
`a` strictly precedes `b` when its score is strictly larger; a stable sort
leaves ties in input order. -/
def scoreGT (a b : ScoredPost) : Prop :=
  b.engagementScore < a.engagementScore

instance : DecidableRel scoreGT :=
  fun a b => inferInstanceAs (Decidable (b.engagementScore < a.engagementScore))

/-- Order of the Mongo `.sort({createdAt: -1})` on candidate posts. -/
def createdAtGT (a b : DbPost) : Prop :=
  b.createdAt < a.createdAt

instance : DecidableRel createdAtGT :=
  fun a b => inferInstanceAs (Decidable (b.createdAt < a.createdAt))

/-- One swap `temp = a[i]; a[i] = a[j]; a[j] = temp` of the shuffle loop. -/
def listSwap (l : List α) (i j : ℕ) : List α :=
  match l[i]?, l[j]? with
  | some a, some b => (l.set i b).set j a
  | _, _ => l

/-- The Fisher–Yates loop `for (let i = n; i > 0; i--)`, swapping position `i`
with `j = shuffleRnd i % (i + 1)` (the model of
`Math.floor(Math.random() * (i + 1))`). -/
def fyRun (shuffleRnd : ℕ → ℕ) : ℕ → List α → List α
  | 0, l => l
  | i + 1, l => fyRun shuffleRnd i (listSwap l (i + 1) (shuffleRnd (i + 1) % (i + 2)))

/-- The full shuffle of `remainingPosts`, starting at index `length - 1`. -/
def fisherYates (shuffleRnd : ℕ → ℕ) (l : List α) : List α :=
  fyRun shuffleRnd (l.length - 1) l

/-- `const excludeUserIds = [...followingStringIds, userId]`: the viewer's
`following` list of `_id` references resolved to application string ids via
`User.find({_id: {$in: followingIds}}).select('id')`, plus the viewer. -/
def excludeUserIdsOf (db : Db) (currentUser : DbUser) (userId : String) : List String :=
  ((db.users.filter (fun u => currentUser.following.contains u.oid)).map (fun u => u.id))
    ++ [userId]

/-- The candidate query:
`Post.find({userId: {$nin: excludeUserIds}}).sort({createdAt: -1}).limit(limitNum * 3)`. -/
def candidateQuery (db : Db) (excludeUserIds : List String) (limitNum : Int) : List DbPost :=
  mongoLimit (limitNum * 3)
    (List.insertionSort createdAtGT
      (db.posts.filter (fun p => !(excludeUserIds.contains p.userId))))

/-- `[...new Set(candidatePosts.map(post => post.userId))]`. -/
def postUserIdsOf (candidatePosts : List DbPost) : List String :=
  (candidatePosts.map (fun p => p.userId)).dedup

/-- `new Map(users.map(u => [u.id, u])).get(k)` where the users were fetched by
`User.find({id: {$in: postUserIds}})`: the last inserted entry for a key wins. -/
def discoveryUserMapGet (users : List DbUser) (postUserIds : List String)
    (k : String) : Option DbUser :=
  ((users.filter (fun u => postUserIds.contains u.id)).filter (fun u => u.id == k)).getLast?

/-- Step 4 of the handler for a single candidate: look up the author in the
user map, count likes and author followers, and attach the engagement score. -/
def scorePost (jsLog : ℚ → ℚ) (db : Db) (postUserIds : List String) (now : ℚ)
    (rand : ℚ) (p : DbPost) : ScoredPost :=
  let likes := p.likes.length
  let userFollowers :=
    match discoveryUserMapGet db.users postUserIds p.userId with
    | none => 0
    | some u => u.followers.length
  { post := p, engagementScore := engagementScore jsLog likes userFollowers now p.createdAt rand }

/-- Step 4 over the whole candidate list; the candidate at position `i`
receives the `Math.random()` draw `randFactors i`. -/
def scoredPostsOf (jsLog : ℚ → ℚ) (db : Db) (postUserIds : List String) (now : ℚ)
    (randFactors : ℕ → ℚ) (candidatePosts : List DbPost) : List ScoredPost :=
  candidatePosts.enum.map (fun ip => scorePost jsLog db postUserIds now (randFactors ip.1) ip.2)

/-- Steps 5–6 of the handler (before response shaping): sort by score
descending, slice the pool to `limitNum * 2`, keep the top
`Math.ceil(pool.length * 0.3)` verbatim, Fisher–Yates-shuffle the rest,
concatenate and truncate with `slice(0, limitNum)`. -/
def blendStage (shuffleRnd : ℕ → ℕ) (limitNum : Int) (scoredPosts : List ScoredPost) :
    List ScoredPost :=
  let sorted := List.insertionSort scoreGT scoredPosts
  let topPosts := jsSliceTo (limitNum * 2) sorted
  let topCount := jsCeil3Tenths topPosts.length
  let randomizedPosts := topPosts.take topCount ++ fisherYates shuffleRnd (topPosts.drop topCount)
  jsSliceTo limitNum randomizedPosts

/-- One element of the response `data` array. -/
structure FormattedPost where
  id : String
  userId : String
  username : String
  userAvatar : String
  songName : String
  artistName : String
  songImage : String
  description : String
  likes : List String
  likesCount : ℕ
  isLiked : Bool
  createdAt : ℚ
  updatedAt : ℚ
  engagementScore : ℚ
deriving DecidableEq

/-- Step 6 response shaping for a single blended post. -/
def formatPost (userId : String) (db : Db) (postUserIds : List String)
    (sp : ScoredPost) : FormattedPost :=
  let user := discoveryUserMapGet db.users postUserIds sp.post.userId
  { id := sp.post.id
    userId := sp.post.userId
    username :=
      match user with
      | none => "Unknown User"
      | some u => jsOrString u.displayName (jsOrString u.username "Unknown User")
    userAvatar :=
      match user with
      | none => "https://i.pravatar.cc/150?img=1"
      | some u => jsOrString u.profilePicture "https://i.pravatar.cc/150?img=1"
    songName := sp.post.songName
    artistName := sp.post.artistName
    songImage := sp.post.songImage
    description := jsOrString sp.post.description ""
    likes := sp.post.likes
    likesCount := sp.post.likes.length
    isLiked := sp.post.likes.contains userId
    createdAt := sp.post.createdAt
    updatedAt := sp.post.updatedAt
    engagementScore := sp.engagementScore }

/-- The `pagination` block of the response. -/
structure Pagination where
  page : Int
  limit : Int
  total : ℕ
  totalPages : Int
deriving DecidableEq

/-- The success payload of the discovery endpoint. -/
structure DiscoveryResponse where
  data : List FormattedPost
  pagination : Pagination
deriving DecidableEq

/-- The two failure responses of the handler: HTTP 400 when `userId` is
missing or empty (JS falsiness) and HTTP 404 when no user matches it. -/
inductive DiscoveryError where
  | missingUserId : DiscoveryError
  | userNotFound : DiscoveryError
deriving DecidableEq

/-- The discovery handler, end to end: parse pagination, resolve the viewer,
build the exclusion set, query and score candidates, blend, shape the
response, and attach the pagination block computed from
`Post.countDocuments({userId: {$nin: excludeUserIds}})`. -/
def getDiscoveryFeed (db : Db) (userIdParam : Option String)
    (limitParam pageParam : Option Int) (now : ℚ) (jsLog : ℚ → ℚ)
    (randFactors : ℕ → ℚ) (shuffleRnd : ℕ → ℕ) :
    Except DiscoveryError DiscoveryResponse :=
  match userIdParam with
  | none => .error .missingUserId
  | some userId =>
    if userId = "" then .error .missingUserId
    else
      let limitNum := limitNumOf limitParam
      let pageNum := pageNumOf pageParam
      match db.users.find? (fun u => u.id == userId) with
      | none => .error .userNotFound
      | some currentUser =>
        let excludeUserIds := excludeUserIdsOf db currentUser userId
        let candidatePosts := candidateQuery db excludeUserIds limitNum
        let postUserIds := postUserIdsOf candidatePosts
        let scoredPosts := scoredPostsOf jsLog db postUserIds now randFactors candidatePosts
        let blended := blendStage shuffleRnd limitNum scoredPosts
        let formattedPosts := blended.map (formatPost userId db postUserIds)
        let totalCount :=
          (db.posts.filter (fun p => !(excludeUserIds.contains p.userId))).length
        .ok
          { data := formattedPosts
            pagination :=
              { page := pageNum
                limit := limitNum
                total := totalCount
                totalPages := jsMathCeilDiv totalCount limitNum } }

/-- The §4.2 scoring formula written exactly as the spec words it, for
refinement comparison with the handler's `engagementScore`: `likeCount × 1.0 +
ln(followerCount + 1) × 0.5 + max(0, 48 − hoursSince)/48 × 3.0 + u × 1.0`,
with `ln` abstracting the natural logarithm and `u` the uniform draw. -/
def specEngagementScore (ln : ℚ → ℚ) (likeCount authorFollowerCount : ℕ)
    (hoursSince u : ℚ) : ℚ :=
  (likeCount : ℚ) * 1.0 + ln ((authorFollowerCount : ℚ) + 1) * 0.5
    + max 0 (48 - hoursSince) / 48 * 3.0 + u * 1.0

/-- The ids of the returned page of a handler result (empty on error). -/
def dataIdsOfResult : Except DiscoveryError DiscoveryResponse → List String
  | .ok r => r.data.map (fun fp => fp.id)
  | .error _ => []

/-! ### Concrete databases used by counterexamples and witnesses -/

/-- A post by author `a<n>` with `k` likers, created at time 0. -/
def mkPost (n k : ℕ) : DbPost :=
  { id := "p" ++ toString n
    userId := "a" ++ toString n
    username := "author" ++ toString n
    songName := "song"
    artistName := "artist"
    songImage := ""
    description := ""
    likes := (List.range k).map (fun i => "liker" ++ toString i)
    createdAt := 0
    updatedAt := 0 }

/-- A viewer who follows nobody. -/
def c1User : DbUser :=
  { oid := "o1", id := "u1", displayName := "Viewer", username := "viewer",
    profilePicture := "", followers := [], following := [] }

/-- Nine candidate posts with like counts 9, 8, …, 1 (so the engagement scores
are 9, 8, …, 1 once freshness, popularity and randomness are all zero). -/
def c1Db : Db :=
  { users := [c1User]
    posts := (List.range 9).map (fun n => mkPost (n + 1) (9 - n)) }

/-- A current time exactly 48 hours after the posts, so every freshness bonus
is zero. -/
def c1Now : ℚ := 48 * 3600000

/-- The shuffle draws used by the C1 counterexample: at loop index 3 the drawn
slot is 0 (moving the pool's last entry to the head of the tail), elsewhere the
draw is the identity (swap in place). -/
def c1Sr : ℕ → ℕ := fun i => if i = 3 then 0 else i

/-- The candidate list of the C1 counterexample run (limit parameter 3). -/
def c1Cands : List DbPost :=
  candidateQuery c1Db (excludeUserIdsOf c1Db c1User "u1") (limitNumOf (some 3))

/-- Its scored version (zero log, zero randomness). -/
def c1Scored : List ScoredPost :=
  scoredPostsOf (fun _ => 0) c1Db (postUserIdsOf c1Cands) c1Now (fun _ => 0) c1Cands

/-- Witness database: the viewer `u1` follows `u2` (via the `_id` reference
`o2`); `u3` is a stranger. -/
def wUser1 : DbUser :=
  { oid := "o1", id := "u1", displayName := "Alice", username := "alice",
    profilePicture := "", followers := [], following := ["o2"] }

/-- The followed user, whose posts must never appear. -/
def wUser2 : DbUser :=
  { oid := "o2", id := "u2", displayName := "Bob", username := "bob",
    profilePicture := "", followers := ["o1"], following := [] }

/-- A stranger whose post is the only discovery candidate. -/
def wUser3 : DbUser :=
  { oid := "o3", id := "u3", displayName := "Carol", username := "carol",
    profilePicture := "", followers := [], following := [] }

/-- A post by the followed user `u2`. -/
def wPostFollowed : DbPost :=
  { id := "pf", userId := "u2", username := "bob", songName := "fsong",
    artistName := "fartist", songImage := "", description := "", likes := [],
    createdAt := 0, updatedAt := 0 }

/-- A post by the stranger `u3`, liked by the viewer. -/
def wPostStranger : DbPost :=
  { id := "pb", userId := "u3", username := "carol", songName := "bsong",
    artistName := "bartist", songImage := "", description := "", likes := ["u1"],
    createdAt := 0, updatedAt := 0 }

/-- The witness database. -/
def wDb : Db :=
  { users := [wUser1, wUser2, wUser3]
    posts := [wPostFollowed, wPostStranger] }

/-- Witness current time: 48 hours after creation, so freshness is zero. -/
def wNow : ℚ := 48 * 3600000

/-- The formatted post the witness run returns: the stranger's post, scored
`1` (one like, zero popularity, zero freshness, zero randomness). -/
def wFp : FormattedPost :=
  { id := "pb", userId := "u3", username := "Carol",
    userAvatar := "https://i.pravatar.cc/150?img=1", songName := "bsong",
    artistName := "bartist", songImage := "", description := "", likes := ["u1"],
    likesCount := 1, isLiked := true, createdAt := 0, updatedAt := 0,
    engagementScore := 1 }

/-- The full witness response: one post, total 1, one page of (default)
limit 20. -/
def wResp : DiscoveryResponse :=
  { data := [wFp]
    pagination := { page := 1, limit := 20, total := 1, totalPages := 1 } }

/-- The success payload of a handler result (a dummy on error). -/
def respOfResult : Except DiscoveryError DiscoveryResponse → DiscoveryResponse
  | .ok r => r
  | .error _ => { data := [], pagination := { page := 0, limit := 0, total := 0, totalPages := 0 } }

/-- Three stranger posts with like counts 3, 2, 1 for the same viewer: small
enough to fit one page, large enough for the shuffled tail to hold two
entries. -/
def c4Db : Db :=
  { users := [c1User]
    posts := [mkPost 1 3, mkPost 2 2, mkPost 3 1] }

/-- Shuffle draws that leave the tail in place. -/
def c4SrA : ℕ → ℕ := fun i => i

/-- Shuffle draws that swap the two tail entries (at loop index 1 the drawn
slot is 0). -/
def c4SrB : ℕ → ℕ := fun i => if i = 1 then 0 else i

/-- The page returned with the in-place draws. -/
def c4RespA : DiscoveryResponse :=
  respOfResult (getDiscoveryFeed c4Db (some "u1") none none c1Now (fun _ => 0) (fun _ => 0) c4SrA)

/-- The page returned with the swapping draws: same posts, different tail
order. -/
def c4RespB : DiscoveryResponse :=
  respOfResult (getDiscoveryFeed c4Db (some "u1") none none c1Now (fun _ => 0) (fun _ => 0) c4SrB)

/-- The candidate list of the witness run (default limit 20). -/
def wCands : List DbPost :=
  candidateQuery wDb (excludeUserIdsOf wDb wUser1 "u1") (limitNumOf none)

/-- Its scored version. -/
def wScored : List ScoredPost :=
  scoredPostsOf (fun _ => 0) wDb (postUserIdsOf wCands) wNow (fun _ => 0) wCands

/-! ### Permutation facts about the Fisher–Yates shuffle -/

/-- Moving the element at index `m` of `t` to the front while writing `a` into
its old slot permutes `a :: t`. -/
lemma getElem_cons_set_perm (a : α) (t : List α) (m : ℕ) (hm : m < t.length) :
    (t[m] :: t.set m a).Perm (a :: t) := by
  have hdecomp : t.set m a = t.take m ++ a :: t.drop (m + 1) := by
    rw [List.set_eq_take_append_cons_drop, if_pos hm]
  have hsplit : t.take m ++ t[m] :: t.drop (m + 1) = t := by
    rw [List.getElem_cons_drop, List.take_append_drop]
  have h1 : (t[m] :: t.set m a).Perm (t[m] :: a :: (t.take m ++ t.drop (m + 1))) := by
    rw [hdecomp]
    exact List.Perm.cons _ List.perm_middle
  have h2 : (t[m] :: a :: (t.take m ++ t.drop (m + 1))).Perm
      (a :: t[m] :: (t.take m ++ t.drop (m + 1))) := List.Perm.swap _ _ _
  have h3 : (a :: t[m] :: (t.take m ++ t.drop (m + 1))).Perm (a :: t) := by
    conv_rhs => rw [← hsplit]
    exact (List.Perm.cons _ List.perm_middle).symm
  exact (h1.trans h2).trans h3

/-- Swapping two in-bounds positions of a list permutes it. -/
lemma set_set_swap_perm :
    ∀ (l : List α) (i j : ℕ), (hi : i < l.length) → (hj : j < l.length) →
      ((l.set i l[j]).set j l[i]).Perm l := by
  intro l
  induction l with
  | nil => intro i j hi _; exact absurd hi (by simp)
  | cons a t ih =>
    intro i j hi hj
    match i, j with
    | 0, 0 => simp
    | 0, m + 1 =>
      have hm : m < t.length := by simpa using hj
      simp only [List.getElem_cons_succ, List.getElem_cons_zero, List.set_cons_zero,
        List.set_cons_succ]
      exact getElem_cons_set_perm a t m hm
    | k + 1, 0 =>
      have hk : k < t.length := by simpa using hi
      simp only [List.getElem_cons_succ, List.getElem_cons_zero, List.set_cons_zero,
        List.set_cons_succ]
      exact getElem_cons_set_perm a t k hk
    | k + 1, m + 1 =>
      have hk : k < t.length := by simpa using hi
      have hm : m < t.length := by simpa using hj
      simp only [List.getElem_cons_succ, List.set_cons_succ]
      exact List.Perm.cons a (ih k m hk hm)

/-- A single swap step of the shuffle loop permutes the list. -/
lemma listSwap_perm (l : List α) (i j : ℕ) : (listSwap l i j).Perm l := by
  unfold listSwap
  cases hii : l[i]? with
  | none => cases l[j]? <;> exact List.Perm.refl l
  | some a =>
    cases hjj : l[j]? with
    | none => exact List.Perm.refl l
    | some b =>
      obtain ⟨hi, rfl⟩ := List.getElem?_eq_some.mp hii
      obtain ⟨hj, rfl⟩ := List.getElem?_eq_some.mp hjj
      exact set_set_swap_perm l i j hi hj

/-- The whole shuffle loop permutes the list. -/
lemma fyRun_perm (rnd : ℕ → ℕ) : ∀ (n : ℕ) (l : List α), (fyRun rnd n l).Perm l := by
  intro n
  induction n with
  | zero => intro l; exact List.Perm.refl l
  | succ i ih =>
    intro l
    exact (ih _).trans (listSwap_perm l (i + 1) (rnd (i + 1) % (i + 2)))

/-- The Fisher–Yates shuffle returns a permutation of its input. -/
lemma fisherYates_perm (rnd : ℕ → ℕ) (l : List α) : (fisherYates rnd l).Perm l :=
  fyRun_perm rnd (l.length - 1) l

/-! ### The score sort produces a non-increasing sequence of scores -/

/-- Inserting into a score-non-increasing list with the strict comparator
order keeps the list score-non-increasing. -/
lemma pairwise_orderedInsert_score (x : ScoredPost) :
    ∀ (l : List ScoredPost),
      l.Pairwise (fun a b => b.engagementScore ≤ a.engagementScore) →
      (List.orderedInsert scoreGT x l).Pairwise
        (fun a b => b.engagementScore ≤ a.engagementScore) := by
  intro l
  induction l with
  | nil => intro _; simp [List.orderedInsert]
  | cons y t ih =>
    intro h
    rw [List.pairwise_cons] at h
    by_cases hxy : scoreGT x y
    · rw [List.orderedInsert, if_pos hxy]
      refine List.pairwise_cons.mpr ⟨?_, List.pairwise_cons.mpr ⟨h.1, h.2⟩⟩
      intro z hz
      rcases List.mem_cons.mp hz with rfl | hzt
      · exact le_of_lt hxy
      · exact le_trans (h.1 z hzt) (le_of_lt hxy)
    · rw [List.orderedInsert, if_neg hxy]
      refine List.pairwise_cons.mpr ⟨?_, ih h.2⟩
      intro z hz
      rcases (List.mem_orderedInsert scoreGT).mp hz with rfl | hzt
      · exact le_of_not_lt hxy
      · exact h.1 z hzt

/-- The sort of step 5 yields scores in non-increasing order. -/
lemma pairwise_insertionSort_score (l : List ScoredPost) :
    (List.insertionSort scoreGT l).Pairwise
      (fun a b => b.engagementScore ≤ a.engagementScore) := by
  induction l with
  | nil => simp [List.insertionSort]
  | cons x t ih => exact pairwise_orderedInsert_score x _ ih

/-! ### Arithmetic bridges for the two `Math.ceil` uses -/

/-- The top-slice size never exceeds the pool size. -/
lemma jsCeil3Tenths_le (n : ℕ) : jsCeil3Tenths n ≤ n := by
  unfold jsCeil3Tenths
  omega

/-- The integer computation `(3n + 9) / 10` is exactly `⌈0.3 × n⌉`. -/
lemma jsCeil3Tenths_eq_ceil (n : ℕ) : jsCeil3Tenths n = ⌈(0.3 : ℚ) * n⌉₊ := by
  unfold jsCeil3Tenths
  rcases Nat.eq_zero_or_pos n with rfl | hn
  · simp
  · have hne : (3 * n + 9) / 10 ≠ 0 := by omega
    rw [eq_comm, Nat.ceil_eq_iff hne]
    have h03 : (0.3 : ℚ) = 3 / 10 := by norm_num
    constructor
    · rw [h03, div_mul_eq_mul_div, lt_div_iff₀ (by norm_num : (0 : ℚ) < 10)]
      exact_mod_cast (by omega : ((3 * n + 9) / 10 - 1) * 10 < 3 * n)
    · rw [h03, div_mul_eq_mul_div, div_le_iff₀ (by norm_num : (0 : ℚ) < 10)]
      exact_mod_cast (by omega : 3 * n ≤ (3 * n + 9) / 10 * 10)

/-- For a positive divisor, the handler's `Math.ceil(total / limitNum)` is the
mathematical ceiling of the rational quotient. -/
lemma jsMathCeilDiv_eq_ceil (a : ℕ) (b : Int) (hb : 1 ≤ b) :
    jsMathCeilDiv a b = ⌈(a : ℚ) / (b : ℚ)⌉ := by
  unfold jsMathCeilDiv
  rw [if_pos (by omega : (0 : Int) < b)]
  set q := Int.ediv ((a : Int) + b - 1) b with hq
  have hqe : b * q + ((a : Int) + b - 1) % b = (a : Int) + b - 1 :=
    Int.ediv_add_emod _ b
  have hr0 : 0 ≤ ((a : Int) + b - 1) % b := Int.emod_nonneg _ (by omega)
  have hrb : ((a : Int) + b - 1) % b < b := Int.emod_lt_of_pos _ (by omega)
  have hbQ : (0 : ℚ) < (b : ℚ) := by exact_mod_cast (by omega : (0 : Int) < b)
  rw [eq_comm, Int.ceil_eq_iff]
  constructor
  · rw [lt_div_iff₀ hbQ]
    have : ((q : Int) - 1) * b ≤ (a : Int) - 1 := by nlinarith [hqe, hr0]
    calc ((q : ℚ) - 1) * (b : ℚ) ≤ ((a : ℚ) - 1) := by exact_mod_cast this
      _ < (a : ℚ) := by linarith
  · rw [div_le_iff₀ hbQ]
    have : (a : Int) ≤ q * b := by nlinarith [hqe, hrb]
    exact_mod_cast this

/-! ### Structure of the blend stage -/

/-- `slice(0, e)` with a non-negative end index is a plain take. -/
lemma jsSliceTo_of_nonneg (e : Int) (he : 0 ≤ e) (l : List α) :
    jsSliceTo e l = l.take e.toNat := by
  unfold jsSliceTo
  rw [if_neg (by omega)]

/-- `slice(0, e)` of the empty list is empty. -/
lemma jsSliceTo_nil (e : Int) : jsSliceTo e ([] : List α) = [] := by
  unfold jsSliceTo
  split <;> simp

/-- Every element produced by `slice(0, e)` is an element of the input. -/
lemma mem_of_mem_jsSliceTo {e : Int} {l : List α} {x : α} (h : x ∈ jsSliceTo e l) : x ∈ l := by
  unfold jsSliceTo at h
  split at h <;> exact List.mem_of_mem_take h

/-- `slice(0, e)` is a sublist of the input. -/
lemma jsSliceTo_sublist (e : Int) (l : List α) : (jsSliceTo e l).Sublist l := by
  unfold jsSliceTo
  split <;> exact List.take_sublist _ _

/-- The blend's verbatim-head plus shuffled-tail concatenation permutes the
pool it was built from. -/
lemma blend_concat_perm (rnd : ℕ → ℕ) (c : ℕ) (pool : List α) :
    (pool.take c ++ fisherYates rnd (pool.drop c)).Perm pool := by
  have h := (fisherYates_perm rnd (pool.drop c)).append_left (pool.take c)
  exact h.trans (by rw [List.take_append_drop])

/-! ### The scoring stage only decorates the candidates -/

/-- Scoring keeps the underlying posts, in order. -/
lemma scoredPostsOf_map_post (jsLog : ℚ → ℚ) (db : Db) (pids : List String) (now : ℚ)
    (rf : ℕ → ℚ) (cands : List DbPost) :
    (scoredPostsOf jsLog db pids now rf cands).map (fun s => s.post) = cands := by
  unfold scoredPostsOf
  rw [List.map_map]
  have : ((fun s : ScoredPost => s.post) ∘
      fun ip : ℕ × DbPost => scorePost jsLog db pids now (rf ip.1) ip.2) = Prod.snd := by
    funext ip
    rfl
  rw [this, List.enum_map_snd]

/-- Scoring keeps the list length. -/
lemma scoredPostsOf_length (jsLog : ℚ → ℚ) (db : Db) (pids : List String) (now : ℚ)
    (rf : ℕ → ℚ) (cands : List DbPost) :
    (scoredPostsOf jsLog db pids now rf cands).length = cands.length := by
  have h := congrArg List.length (scoredPostsOf_map_post jsLog db pids now rf cands)
  simpa using h

/-- Every scored post wraps one of the candidates. -/
lemma post_mem_of_mem_scoredPostsOf {jsLog : ℚ → ℚ} {db : Db} {pids : List String} {now : ℚ}
    {rf : ℕ → ℚ} {cands : List DbPost} {sp : ScoredPost}
    (h : sp ∈ scoredPostsOf jsLog db pids now rf cands) : sp.post ∈ cands := by
  rw [← scoredPostsOf_map_post jsLog db pids now rf cands]
  exact List.mem_map_of_mem _ h

/-! ### Structure of the blend stage -/

/-- The blend stage, with the two JS slices rewritten as takes (the page limit
is non-negative here). -/
lemma blendStage_eq_of_nonneg (rnd : ℕ → ℕ) (L : Int) (hL : 0 ≤ L)
    (scored : List ScoredPost) :
    blendStage rnd L scored =
      (((List.insertionSort scoreGT scored).take (L * 2).toNat).take
          (jsCeil3Tenths ((List.insertionSort scoreGT scored).take (L * 2).toNat).length)
        ++ fisherYates rnd
          (((List.insertionSort scoreGT scored).take (L * 2).toNat).drop
            (jsCeil3Tenths ((List.insertionSort scoreGT scored).take (L * 2).toNat).length))).take
        L.toNat := by
  simp only [blendStage]
  rw [jsSliceTo_of_nonneg (L * 2) (by omega), jsSliceTo_of_nonneg L hL]

/-- The first `topCount` entries of the blended output are the first
`min topCount limit` entries of the pool, hence of the sorted order. -/
lemma blend_concat_take_take (rnd : ℕ → ℕ) (pool : List α) (c L' : ℕ) (hc : c ≤ pool.length) :
    ((pool.take c ++ fisherYates rnd (pool.drop c)).take L').take c = pool.take (min c L') := by
  rw [List.take_take]
  have hlen : (pool.take c).length = c := by
    rw [List.length_take]
    exact min_eq_left hc
  rw [List.take_append_of_le_length (by rw [hlen]; exact min_le_left c L')]
  rw [List.take_take]
  congr 1
  exact inf_eq_left.mpr (min_le_left c L')

/-- The blended concatenation permutes its pool. -/
lemma blend_concat_length (rnd : ℕ → ℕ) (pool : List α) (c : ℕ) :
    (pool.take c ++ fisherYates rnd (pool.drop c)).length = pool.length :=
  (blend_concat_perm rnd c pool).length_eq

/-- Everything in the blended output comes from the `limitNum * 2` pool slice
of the score-sorted candidates. -/
lemma mem_pool_of_mem_blendStage {rnd : ℕ → ℕ} {L : Int} {scored : List ScoredPost}
    {x : ScoredPost} (h : x ∈ blendStage rnd L scored) :
    x ∈ jsSliceTo (L * 2) (List.insertionSort scoreGT scored) := by
  unfold blendStage at h
  have h1 := mem_of_mem_jsSliceTo h
  rcases List.mem_append.mp h1 with h2 | h2
  · exact List.mem_of_mem_take h2
  · exact List.mem_of_mem_drop ((fisherYates_perm rnd _).mem_iff.mp h2)

/-- Everything in the blended output is one of the scored candidates. -/
lemma mem_scored_of_mem_blendStage {rnd : ℕ → ℕ} {L : Int} {scored : List ScoredPost}
    {x : ScoredPost} (h : x ∈ blendStage rnd L scored) : x ∈ scored :=
  (List.perm_insertionSort scoreGT scored).mem_iff.mp
    (mem_of_mem_jsSliceTo (mem_pool_of_mem_blendStage h))

/-- When all scored candidates fit in the page (`n ≤ limit`), blending is a
pure permutation: nothing is truncated away. -/
lemma blendStage_perm_of_le (rnd : ℕ → ℕ) (L : Int) (scored : List ScoredPost)
    (h : scored.length ≤ L.toNat) : (blendStage rnd L scored).Perm scored := by
  rcases le_or_lt 0 L with hL | hL
  · rw [blendStage_eq_of_nonneg rnd L hL scored]
    have hsortlen : (List.insertionSort scoreGT scored).length = scored.length :=
      (List.perm_insertionSort scoreGT scored).length_eq
    have hpool : (List.insertionSort scoreGT scored).take (L * 2).toNat =
        List.insertionSort scoreGT scored := by
      apply List.take_of_length_le
      rw [hsortlen]
      omega
    rw [hpool]
    have hperm := blend_concat_perm rnd
      (jsCeil3Tenths (List.insertionSort scoreGT scored).length)
      (List.insertionSort scoreGT scored)
    have hfull : ((List.insertionSort scoreGT scored).take
          (jsCeil3Tenths (List.insertionSort scoreGT scored).length)
        ++ fisherYates rnd ((List.insertionSort scoreGT scored).drop
          (jsCeil3Tenths (List.insertionSort scoreGT scored).length))).take L.toNat =
        ((List.insertionSort scoreGT scored).take
          (jsCeil3Tenths (List.insertionSort scoreGT scored).length)
        ++ fisherYates rnd ((List.insertionSort scoreGT scored).drop
          (jsCeil3Tenths (List.insertionSort scoreGT scored).length))) := by
      apply List.take_of_length_le
      rw [hperm.length_eq, hsortlen]
      exact h
    rw [hfull]
    exact hperm.trans (List.perm_insertionSort scoreGT scored)
  · have hzero : scored.length = 0 := by omega
    have hnil : scored = [] := List.length_eq_zero.mp hzero
    subst hnil
    unfold blendStage
    simp [jsSliceTo_nil, fisherYates, fyRun, List.insertionSort]

/-! ### Unfolding the success path of the handler -/

/-- When the `userId` parameter is non-empty and resolves to a user, the
handler returns the blended page together with the pagination block, spelled
out stage by stage. -/
lemma getDiscoveryFeed_ok_eq (db : Db) (uid : String) (lim pg : Option Int) (now : ℚ)
    (jsLog : ℚ → ℚ) (rf : ℕ → ℚ) (sr : ℕ → ℕ) (cu : DbUser)
    (h0 : ¬ uid = "") (hcu : db.users.find? (fun u => u.id == uid) = some cu) :
    getDiscoveryFeed db (some uid) lim pg now jsLog rf sr =
      .ok
        { data :=
            (blendStage sr (limitNumOf lim)
              (scoredPostsOf jsLog db
                (postUserIdsOf (candidateQuery db (excludeUserIdsOf db cu uid) (limitNumOf lim)))
                now rf
                (candidateQuery db (excludeUserIdsOf db cu uid) (limitNumOf lim)))).map
              (formatPost uid db
                (postUserIdsOf (candidateQuery db (excludeUserIdsOf db cu uid) (limitNumOf lim))))
          pagination :=
            { page := pageNumOf pg
              limit := limitNumOf lim
              total :=
                (db.posts.filter
                  (fun p => !((excludeUserIdsOf db cu uid).contains p.userId))).length
              totalPages :=
                jsMathCeilDiv
                  ((db.posts.filter
                    (fun p => !((excludeUserIdsOf db cu uid).contains p.userId))).length)
                  (limitNumOf lim) } } := by
  simp only [getDiscoveryFeed, hcu, if_neg h0]

/-- On the success path the `userId` parameter was present and non-empty. -/
lemma ne_empty_of_getDiscoveryFeed_ok {db : Db} {uid : String} {lim pg : Option Int}
    {now : ℚ} {jsLog : ℚ → ℚ} {rf : ℕ → ℚ} {sr : ℕ → ℕ} {resp : DiscoveryResponse}
    (h : getDiscoveryFeed db (some uid) lim pg now jsLog rf sr = .ok resp) : ¬ uid = "" := by
  intro h0
  rw [getDiscoveryFeed, if_pos h0] at h
  exact Except.noConfusion h

/-! ### Small bridging lemmas -/

/-- A `false` result of `contains` means non-membership. -/
lemma not_mem_of_contains_eq_false {l : List String} {a : String}
    (h : l.contains a = false) : a ∉ l := by
  intro hmem
  have h2 : l.elem a = false := h
  rw [List.elem_iff.mpr hmem] at h2
  simp at h2

/-- Membership gives a `true` result of `contains`. -/
lemma contains_eq_true_of_mem {l : List String} {a : String} (h : a ∈ l) :
    l.contains a = true :=
  List.elem_iff.mpr h

/-- Every candidate the query returns is a stored post whose author is outside
the exclusion list. -/
lemma mem_filter_of_mem_candidateQuery {db : Db} {ex : List String} {L : Int} {p : DbPost}
    (h : p ∈ candidateQuery db ex L) : p ∈ db.posts ∧ p.userId ∉ ex := by
  unfold candidateQuery mongoLimit at h
  have h1 := List.mem_of_mem_take h
  have h2 := (List.perm_insertionSort createdAtGT _).mem_iff.mp h1
  have h3 := List.mem_filter.mp h2
  refine ⟨h3.1, not_mem_of_contains_eq_false ?_⟩
  simpa using h3.2

/-- Formatting preserves the post ids, position by position. -/
lemma data_map_id (uid : String) (db : Db) (pids : List String)
    (blended : List ScoredPost) :
    (blended.map (formatPost uid db pids)).map (fun fp => fp.id) =
      blended.map (fun sp => sp.post.id) := by
  rw [List.map_map]
  rfl

/-- Scoring preserves the post ids, position by position. -/
lemma scoredPostsOf_map_post_id (jsLog : ℚ → ℚ) (db : Db) (pids : List String) (now : ℚ)
    (rf : ℕ → ℚ) (cands : List DbPost) :
    (scoredPostsOf jsLog db pids now rf cands).map (fun sp => sp.post.id) =
      cands.map (fun p => p.id) := by
  rw [show (fun sp : ScoredPost => sp.post.id) =
      ((fun p : DbPost => p.id) ∘ (fun sp : ScoredPost => sp.post)) from rfl,
    ← List.map_map, scoredPostsOf_map_post]

/-- Blending an empty candidate list yields the empty page. -/
lemma blendStage_nil (sr : ℕ → ℕ) (L : Int) :
    blendStage sr L ([] : List ScoredPost) = [] := by
  simp [blendStage, List.insertionSort, jsSliceTo_nil, fisherYates, fyRun]

/-! ### Claims -/

/-- C3: for every candidate, author follower count and current time, the
engagement score equals `likeCount × 1.0 + ln(followerCount + 1) × 0.5 +
max(0, 48 − hoursSinceCreated)/48 × 3.0 + r × 1.0` (the spec's §4.2 formula,
with `jsLog` abstracting `Math.log` and `r` the per-candidate uniform draw);
and the freshness term is exactly 0 once `hoursSinceCreated ≥ 48`. -/
theorem c3_engagement_formula (jsLog : ℚ → ℚ) (likes userFollowers : ℕ)
    (now createdAt rand : ℚ) :
    engagementScore jsLog likes userFollowers now createdAt rand =
      specEngagementScore jsLog likes userFollowers (hoursSinceCreated now createdAt) rand ∧
    (48 ≤ hoursSinceCreated now createdAt →
      recencyScore now createdAt * 3 = 0 ∧
      engagementScore jsLog likes userFollowers now createdAt rand =
        (likes : ℚ) * 1.0 + jsLog ((userFollowers : ℚ) + 1) * 0.5 + rand * 1.0) := by
  have hmain : engagementScore jsLog likes userFollowers now createdAt rand =
      specEngagementScore jsLog likes userFollowers (hoursSinceCreated now createdAt) rand := by
    simp only [engagementScore, specEngagementScore, recencyScore]
    ring
  refine ⟨hmain, fun h => ?_⟩
  have hmax : max 0 (48 - hoursSinceCreated now createdAt) = 0 :=
    max_eq_left (by linarith)
  constructor
  · simp only [recencyScore, hmax]
    norm_num
  · simp only [engagementScore, recencyScore, hmax]
    ring

/-- C3 witness: at 50 hours of age (time 180000000 ms vs 0 ms) the freshness
term vanishes and the score of a 2-like post reduces to the remaining
summands. -/
theorem c3_witness :
    (48 : ℚ) ≤ hoursSinceCreated 180000000 0 ∧
    recencyScore 180000000 0 * 3 = 0 ∧
    engagementScore (fun _ => 0) 2 0 180000000 0 (1 / 2) =
      ((2 : ℕ) : ℚ) * 1.0 + (0 : ℚ) * 0.5 + (1 / 2) * 1.0 := by
  have hh : (48 : ℚ) ≤ hoursSinceCreated 180000000 0 := by
    norm_num [hoursSinceCreated]
  have h := (c3_engagement_formula (fun _ => 0) 2 0 180000000 0 (1 / 2)).2 hh
  exact ⟨hh, h.1, h.2⟩

/-- C7: holding the author follower count, creation time, current time, the
log function and the random draw fixed, the engagement score is monotonically
non-decreasing in the like count. -/
theorem c7_monotone_likes (jsLog : ℚ → ℚ) (a b userFollowers : ℕ)
    (now createdAt rand : ℚ) (hab : a ≤ b) :
    engagementScore jsLog a userFollowers now createdAt rand ≤
      engagementScore jsLog b userFollowers now createdAt rand := by
  simp only [engagementScore]
  have hc : (a : ℚ) ≤ (b : ℚ) := by exact_mod_cast hab
  linarith

/-- C7 witness: one like scores no higher than two likes, all else equal. -/
theorem c7_witness :
    engagementScore (fun _ => 0) 1 0 0 0 0 ≤ engagementScore (fun _ => 0) 2 0 0 0 0 :=
  c7_monotone_likes (fun _ => 0) 1 2 0 0 0 0 (by norm_num)

/-- C8: a request whose (non-empty) viewer id resolves to no user fails with
the not-found error, and the result does not depend on the posts collection at
all — no candidate query or scoring influences it. -/
theorem c8_viewer_not_found (users : List DbUser) (posts otherPosts : List DbPost)
    (lim pg : Option Int) (now : ℚ) (jsLog : ℚ → ℚ) (rf : ℕ → ℚ) (sr : ℕ → ℕ)
    (uid : String) (h0 : ¬ uid = "")
    (hnone : users.find? (fun u => u.id == uid) = none) :
    getDiscoveryFeed { users := users, posts := posts } (some uid) lim pg now jsLog rf sr =
        .error .userNotFound ∧
    getDiscoveryFeed { users := users, posts := posts } (some uid) lim pg now jsLog rf sr =
      getDiscoveryFeed { users := users, posts := otherPosts } (some uid) lim pg now jsLog rf sr := by
  have h1 : ∀ ps : List DbPost,
      getDiscoveryFeed { users := users, posts := ps } (some uid) lim pg now jsLog rf sr =
        .error .userNotFound := by
    intro ps
    simp only [getDiscoveryFeed, hnone, if_neg h0]
  exact ⟨h1 posts, (h1 posts).trans (h1 otherPosts).symm⟩

/-- C8 witness: the viewer `u1` does not exist in a database holding only
`u2`; the request fails with the not-found error whatever posts exist. -/
theorem c8_witness :
    getDiscoveryFeed { users := [wUser2], posts := [wPostStranger] } (some "u1")
        none none 0 (fun _ => 0) (fun _ => 0) (fun i => i) = .error .userNotFound ∧
    getDiscoveryFeed { users := [wUser2], posts := [wPostStranger] } (some "u1")
        none none 0 (fun _ => 0) (fun _ => 0) (fun i => i) =
      getDiscoveryFeed { users := [wUser2], posts := [] } (some "u1")
        none none 0 (fun _ => 0) (fun _ => 0) (fun i => i) :=
  c8_viewer_not_found [wUser2] [wPostStranger] [] none none 0 (fun _ => 0) (fun _ => 0)
    (fun i => i) "u1" (by decide) (by with_unfolding_all rfl)

/-- C6 counterexample: with `limit = -5` and `page = 0` (both non-positive)
the handler does not reject: it answers 200 OK, silently clamping the page to
1 and passing the negative limit straight through to the pagination block. -/
theorem c6_claim_false :
    getDiscoveryFeed { users := [c1User], posts := [] } (some "u1") (some (-5)) (some 0) 0
        (fun _ => 0) (fun _ => 0) (fun i => i) =
      .ok { data := [],
            pagination := { page := 1, limit := -5, total := 0, totalPages := 0 } } := by
  with_unfolding_all rfl

/-- C6 amended: non-positive pagination parameters are never rejected — the
handler's only errors are a missing/empty `userId` and an unknown viewer.
Instead, the page number is silently clamped to at least 1, a `limit` of 0 (or
an unparseable one) falls back to the default 20, any other parsed limit is
only capped above at 50 (so negative limits pass through). -/
theorem c6_no_rejection_amended (db : Db) (uid : String) (lim pg : Option Int) (now : ℚ)
    (jsLog : ℚ → ℚ) (rf : ℕ → ℚ) (sr : ℕ → ℕ) (e : DiscoveryError)
    (herr : getDiscoveryFeed db (some uid) lim pg now jsLog rf sr = .error e) :
    1 ≤ pageNumOf pg ∧
    limitNumOf lim ≤ 50 ∧
    (∀ v : Int, lim = some v → ¬ v = 0 → limitNumOf lim = min v 50) ∧
    (lim = some 0 → limitNumOf lim = 20) ∧
    ((e = .missingUserId ∧ uid = "") ∨
      (e = .userNotFound ∧ db.users.find? (fun u => u.id == uid) = none)) := by
  refine ⟨le_max_right _ 1, min_le_right _ 50, ?_, ?_, ?_⟩
  · intro v hv hv0
    subst hv
    simp only [limitNumOf, jsOrDefault, if_neg hv0]
  · intro hv
    subst hv
    simp only [limitNumOf, jsOrDefault]
    norm_num
  · by_cases h0 : uid = ""
    · left
      refine ⟨?_, h0⟩
      rw [getDiscoveryFeed, if_pos h0] at herr
      exact (Except.error.inj herr).symm
    · right
      cases hfind : db.users.find? (fun u => u.id == uid) with
      | none =>
        refine ⟨?_, rfl⟩
        simp only [getDiscoveryFeed, if_neg h0, hfind] at herr
        exact (Except.error.inj herr).symm
      | some cu =>
        rw [getDiscoveryFeed_ok_eq db uid lim pg now jsLog rf sr cu h0 hfind] at herr
        exact Except.noConfusion herr

/-- C6 amended witness: a request by the unknown viewer `ghost` with negative
limit and zero page errors only because the viewer is unknown, and the
clamping equations hold at those parameters. -/
theorem c6_witness :
    1 ≤ pageNumOf (some 0) ∧
    limitNumOf (some (-5)) ≤ 50 ∧
    (∀ v : Int, some (-5) = some v → ¬ v = 0 → limitNumOf (some (-5)) = min v 50) ∧
    (some (-5) = some 0 → limitNumOf (some (-5)) = 20) ∧
    ((DiscoveryError.userNotFound = .missingUserId ∧ "ghost" = "") ∨
      (DiscoveryError.userNotFound = .userNotFound ∧
        wDb.users.find? (fun u => u.id == "ghost") = none)) :=
  c6_no_rejection_amended wDb "ghost" (some (-5)) (some 0) 0 (fun _ => 0) (fun _ => 0)
    (fun i => i) .userNotFound (by with_unfolding_all rfl)

/-- C2: the exclusion set contains the viewer's id and, after normalising the
`_id` references of the follow list to string ids, every followed author's id;
consequently no returned post is authored by the viewer or by a followed
author. -/
theorem c2_exclusion_invariant (db : Db) (uid : String) (lim pg : Option Int) (now : ℚ)
    (jsLog : ℚ → ℚ) (rf : ℕ → ℚ) (sr : ℕ → ℕ) (cu : DbUser) (resp : DiscoveryResponse)
    (hcu : db.users.find? (fun u => u.id == uid) = some cu)
    (hok : getDiscoveryFeed db (some uid) lim pg now jsLog rf sr = .ok resp) :
    uid ∈ excludeUserIdsOf db cu uid ∧
    (∀ u ∈ db.users, cu.following.contains u.oid = true →
      u.id ∈ excludeUserIdsOf db cu uid) ∧
    (∀ fp ∈ resp.data, fp.userId ∉ excludeUserIdsOf db cu uid ∧ ¬ fp.userId = uid ∧
      ∀ u ∈ db.users, cu.following.contains u.oid = true → ¬ fp.userId = u.id) := by
  have h0 : ¬ uid = "" := ne_empty_of_getDiscoveryFeed_ok hok
  have hself : uid ∈ excludeUserIdsOf db cu uid := by
    unfold excludeUserIdsOf
    exact List.mem_append.mpr (Or.inr (List.mem_singleton.mpr rfl))
  have hfollow : ∀ u ∈ db.users, cu.following.contains u.oid = true →
      u.id ∈ excludeUserIdsOf db cu uid := by
    intro u hu hc
    unfold excludeUserIdsOf
    exact List.mem_append.mpr (Or.inl (List.mem_map_of_mem _ (List.mem_filter.mpr ⟨hu, hc⟩)))
  refine ⟨hself, hfollow, ?_⟩
  intro fp hfp
  rw [getDiscoveryFeed_ok_eq db uid lim pg now jsLog rf sr cu h0 hcu] at hok
  have hresp := Except.ok.inj hok
  subst hresp
  obtain ⟨sp, hsp, rfl⟩ := List.mem_map.mp hfp
  have hsc := mem_scored_of_mem_blendStage hsp
  have hpost := post_mem_of_mem_scoredPostsOf hsc
  have hfil := mem_filter_of_mem_candidateQuery hpost
  refine ⟨hfil.2, ?_, ?_⟩
  · intro heq
    have heq' : sp.post.userId = uid := heq
    apply hfil.2
    rw [heq']
    exact hself
  · intro u hu hc heq
    have heq' : sp.post.userId = u.id := heq
    apply hfil.2
    rw [heq']
    exact hfollow u hu hc

/-- C2 witness: in the witness database the returned stranger's post is
authored neither by the viewer `u1` nor by anyone `u1` follows. -/
theorem c2_witness :
    wFp.userId ∉ excludeUserIdsOf wDb wUser1 "u1" ∧ ¬ wFp.userId = "u1" := by
  have h := (c2_exclusion_invariant wDb "u1" none none wNow (fun _ => 0) (fun _ => 0)
      (fun i => i) wUser1 wResp (by with_unfolding_all rfl)
      (by with_unfolding_all rfl)).2.2 wFp (List.mem_singleton.mpr rfl)
  exact ⟨h.1, h.2.1⟩

/-- C5: the pagination block reports `total` as the count of all posts
matching the exclusion filter — independent of the over-fetch cap, blending
and truncation — with `totalPages = ⌈total / limit⌉`; and when the viewer
follows every other author of every stored post, the page is empty with
`total = 0`. -/
theorem c5_pagination_total (db : Db) (uid : String) (lim pg : Option Int) (now : ℚ)
    (jsLog : ℚ → ℚ) (rf : ℕ → ℚ) (sr : ℕ → ℕ) (cu : DbUser) (resp : DiscoveryResponse)
    (hcu : db.users.find? (fun u => u.id == uid) = some cu)
    (hok : getDiscoveryFeed db (some uid) lim pg now jsLog rf sr = .ok resp)
    (hlim : 1 ≤ limitNumOf lim) :
    resp.pagination.total =
      (db.posts.filter (fun p => !((excludeUserIdsOf db cu uid).contains p.userId))).length ∧
    resp.pagination.totalPages =
      ⌈(resp.pagination.total : ℚ) / ((limitNumOf lim : Int) : ℚ)⌉ ∧
    ((∀ p ∈ db.posts, p.userId = uid ∨
        ∃ u ∈ db.users, cu.following.contains u.oid = true ∧ u.id = p.userId) →
      resp.data = [] ∧ resp.pagination.total = 0) := by
  have h0 : ¬ uid = "" := ne_empty_of_getDiscoveryFeed_ok hok
  rw [getDiscoveryFeed_ok_eq db uid lim pg now jsLog rf sr cu h0 hcu] at hok
  have hresp := Except.ok.inj hok
  subst hresp
  refine ⟨rfl, jsMathCeilDiv_eq_ceil _ _ hlim, ?_⟩
  intro hall
  have hfil : db.posts.filter
      (fun p => !((excludeUserIdsOf db cu uid).contains p.userId)) = [] := by
    rw [List.filter_eq_nil_iff]
    intro p hp
    have hmem : p.userId ∈ excludeUserIdsOf db cu uid := by
      rcases hall p hp with hpu | ⟨u, hu, hc, huid⟩
      · rw [hpu]
        unfold excludeUserIdsOf
        exact List.mem_append.mpr (Or.inr (List.mem_singleton.mpr rfl))
      · rw [← huid]
        unfold excludeUserIdsOf
        exact List.mem_append.mpr
          (Or.inl (List.mem_map_of_mem _ (List.mem_filter.mpr ⟨hu, hc⟩)))
    have hct : (excludeUserIdsOf db cu uid).contains p.userId = true :=
      contains_eq_true_of_mem hmem
    simp [hct]
    exact hmem
  have hcands : candidateQuery db (excludeUserIdsOf db cu uid) (limitNumOf lim) = [] := by
    unfold candidateQuery
    rw [hfil]
    simp [mongoLimit, List.insertionSort]
  constructor
  · show (blendStage sr (limitNumOf lim)
        (scoredPostsOf jsLog db
          (postUserIdsOf (candidateQuery db (excludeUserIdsOf db cu uid) (limitNumOf lim)))
          now rf
          (candidateQuery db (excludeUserIdsOf db cu uid) (limitNumOf lim)))).map
        (formatPost uid db
          (postUserIdsOf (candidateQuery db (excludeUserIdsOf db cu uid) (limitNumOf lim)))) = []
    rw [hcands]
    rw [show scoredPostsOf jsLog db (postUserIdsOf []) now rf [] = [] from rfl, blendStage_nil]
    rfl
  · show (db.posts.filter
        (fun p => !((excludeUserIdsOf db cu uid).contains p.userId))).length = 0
    rw [hfil]
    rfl

/-- C5 witness: in the witness database the reported total is the exclusion
filter's count (1) and `totalPages = ⌈1 / 20⌉`. -/
theorem c5_witness :
    wResp.pagination.total =
      (wDb.posts.filter
        (fun p => !((excludeUserIdsOf wDb wUser1 "u1").contains p.userId))).length ∧
    wResp.pagination.totalPages =
      ⌈(wResp.pagination.total : ℚ) / ((limitNumOf none : Int) : ℚ)⌉ ∧
    ((∀ p ∈ wDb.posts, p.userId = "u1" ∨
        ∃ u ∈ wDb.users, wUser1.following.contains u.oid = true ∧ u.id = p.userId) →
      wResp.data = [] ∧ wResp.pagination.total = 0) :=
  c5_pagination_total wDb "u1" none none wNow (fun _ => 0) (fun _ => 0) (fun i => i)
    wUser1 wResp (by with_unfolding_all rfl) (by with_unfolding_all rfl)
    (by with_unfolding_all decide)

/-- C4: with a fixed database and `n ≤ limit` candidates, two runs with
different randomness draws (both the per-candidate factors and the shuffle)
return the same multiset of post ids — the draws may only reorder the page. -/
theorem c4_set_stability (db : Db) (uid : String) (lim pg : Option Int) (now : ℚ)
    (jsLog : ℚ → ℚ) (rf₁ rf₂ : ℕ → ℚ) (sr₁ sr₂ : ℕ → ℕ) (cu : DbUser)
    (resp₁ resp₂ : DiscoveryResponse)
    (hcu : db.users.find? (fun u => u.id == uid) = some cu)
    (hn : (candidateQuery db (excludeUserIdsOf db cu uid) (limitNumOf lim)).length ≤
      (limitNumOf lim).toNat)
    (h1 : getDiscoveryFeed db (some uid) lim pg now jsLog rf₁ sr₁ = .ok resp₁)
    (h2 : getDiscoveryFeed db (some uid) lim pg now jsLog rf₂ sr₂ = .ok resp₂) :
    (resp₁.data.map (fun fp => fp.id) : Multiset String) =
      (resp₂.data.map (fun fp => fp.id) : Multiset String) := by
  have h0 : ¬ uid = "" := ne_empty_of_getDiscoveryFeed_ok h1
  have key : ∀ (rf : ℕ → ℚ) (sr : ℕ → ℕ) (resp : DiscoveryResponse),
      getDiscoveryFeed db (some uid) lim pg now jsLog rf sr = .ok resp →
      (resp.data.map (fun fp => fp.id) : Multiset String) =
        ((candidateQuery db (excludeUserIdsOf db cu uid) (limitNumOf lim)).map
          (fun p => p.id) : Multiset String) := by
    intro rf sr resp hok
    rw [getDiscoveryFeed_ok_eq db uid lim pg now jsLog rf sr cu h0 hcu] at hok
    have hresp := Except.ok.inj hok
    subst hresp
    rw [Multiset.coe_eq_coe]
    have e1 := data_map_id uid db
      (postUserIdsOf (candidateQuery db (excludeUserIdsOf db cu uid) (limitNumOf lim)))
      (blendStage sr (limitNumOf lim)
        (scoredPostsOf jsLog db
          (postUserIdsOf (candidateQuery db (excludeUserIdsOf db cu uid) (limitNumOf lim)))
          now rf
          (candidateQuery db (excludeUserIdsOf db cu uid) (limitNumOf lim))))
    have hp : (blendStage sr (limitNumOf lim)
        (scoredPostsOf jsLog db
          (postUserIdsOf (candidateQuery db (excludeUserIdsOf db cu uid) (limitNumOf lim)))
          now rf
          (candidateQuery db (excludeUserIdsOf db cu uid) (limitNumOf lim)))).Perm
        (scoredPostsOf jsLog db
          (postUserIdsOf (candidateQuery db (excludeUserIdsOf db cu uid) (limitNumOf lim)))
          now rf
          (candidateQuery db (excludeUserIdsOf db cu uid) (limitNumOf lim))) :=
      blendStage_perm_of_le _ _ _ (by rw [scoredPostsOf_length]; exact hn)
    rw [e1, ← scoredPostsOf_map_post_id jsLog db
      (postUserIdsOf (candidateQuery db (excludeUserIdsOf db cu uid) (limitNumOf lim)))
      now rf (candidateQuery db (excludeUserIdsOf db cu uid) (limitNumOf lim))]
    exact hp.map _
  exact (key rf₁ sr₁ resp₁ h1).trans (key rf₂ sr₂ resp₂ h2).symm

/-- C4 witness: on the three-candidate database the two draw functions return
visibly different page orders but the same multiset of ids. -/
theorem c4_witness :
    (c4RespA.data.map (fun fp => fp.id) : Multiset String) =
      (c4RespB.data.map (fun fp => fp.id) : Multiset String) :=
  c4_set_stability c4Db "u1" none none c1Now (fun _ => 0) (fun _ => 0) (fun _ => 0)
    c4SrA c4SrB c1User c4RespA c4RespB (by with_unfolding_all rfl)
    (by
      have hl : (candidateQuery c4Db (excludeUserIdsOf c4Db c1User "u1")
          (limitNumOf none)).length = 3 := by with_unfolding_all rfl
      have hr : (limitNumOf none).toNat = 20 := by with_unfolding_all rfl
      omega)
    (by with_unfolding_all rfl) (by with_unfolding_all rfl)

/-- The blended page is a sublist of the verbatim-head plus shuffled-tail
concatenation built over the `limitNum * 2` pool. -/
lemma blendStage_sublist_concat (sr : ℕ → ℕ) (L : Int) (scored : List ScoredPost) :
    (blendStage sr L scored).Sublist
      ((jsSliceTo (L * 2) (List.insertionSort scoreGT scored)).take
          (jsCeil3Tenths (jsSliceTo (L * 2) (List.insertionSort scoreGT scored)).length)
        ++ fisherYates sr ((jsSliceTo (L * 2) (List.insertionSort scoreGT scored)).drop
          (jsCeil3Tenths (jsSliceTo (L * 2) (List.insertionSort scoreGT scored)).length))) := by
  simp only [blendStage]
  exact jsSliceTo_sublist _ _

/-- If the scored candidates carry pairwise-distinct post ids, so does the
blended page. -/
lemma blendStage_map_id_nodup (sr : ℕ → ℕ) (L : Int) (S : List ScoredPost)
    (h : (S.map (fun sp => sp.post.id)).Nodup) :
    ((blendStage sr L S).map (fun sp => sp.post.id)).Nodup := by
  have p2 := (List.perm_insertionSort scoreGT S).map (fun sp => sp.post.id)
  have n5 : ((List.insertionSort scoreGT S).map (fun sp => sp.post.id)).Nodup :=
    p2.nodup_iff.mpr h
  have s2 := List.Sublist.map (fun sp => sp.post.id)
    (jsSliceTo_sublist (L * 2) (List.insertionSort scoreGT S))
  have n6 := List.Nodup.sublist s2 n5
  have p1 := (blend_concat_perm sr
    (jsCeil3Tenths (jsSliceTo (L * 2) (List.insertionSort scoreGT S)).length)
    (jsSliceTo (L * 2) (List.insertionSort scoreGT S))).map (fun sp => sp.post.id)
  have n7 := p1.nodup_iff.mpr n6
  have s1 := List.Sublist.map (fun sp => sp.post.id) (blendStage_sublist_concat sr L S)
  exact List.Nodup.sublist s1 n7

/-- If the stored posts carry pairwise-distinct ids, so do the candidates the
query returns. -/
lemma candidateQuery_map_id_nodup {db : Db} {ex : List String} {L : Int}
    (h : (db.posts.map (fun p => p.id)).Nodup) :
    ((candidateQuery db ex L).map (fun p => p.id)).Nodup := by
  have n1 : ((db.posts.filter (fun p => !(ex.contains p.userId))).map
      (fun p => p.id)).Nodup :=
    List.Nodup.sublist (List.Sublist.map _ (List.filter_sublist db.posts)) h
  have p1 := (List.perm_insertionSort createdAtGT
    (db.posts.filter (fun p => !(ex.contains p.userId)))).map (fun p => p.id)
  have n2 := p1.nodup_iff.mpr n1
  unfold candidateQuery mongoLimit
  exact List.Nodup.sublist (List.Sublist.map _ (List.take_sublist _ _)) n2

/-- C9: only candidates ranked among the first `2 × limit` of the score-sorted
order can ever be returned (the rest are cut before the shuffle), and the
verbatim top-slice size is `⌈0.3 × min(n, 2 × limit)⌉`, computed over that
truncated pool rather than over all n scored candidates. -/
theorem c9_pool_cap (db : Db) (uid : String) (lim pg : Option Int) (now : ℚ)
    (jsLog : ℚ → ℚ) (rf : ℕ → ℚ) (sr : ℕ → ℕ) (cu : DbUser) (resp : DiscoveryResponse)
    (hcu : db.users.find? (fun u => u.id == uid) = some cu)
    (hok : getDiscoveryFeed db (some uid) lim pg now jsLog rf sr = .ok resp)
    (hlim : 1 ≤ limitNumOf lim) :
    (∀ fp ∈ resp.data, ∃ sp ∈ (List.insertionSort scoreGT
        (scoredPostsOf jsLog db
          (postUserIdsOf (candidateQuery db (excludeUserIdsOf db cu uid) (limitNumOf lim)))
          now rf
          (candidateQuery db (excludeUserIdsOf db cu uid) (limitNumOf lim)))).take
          (2 * (limitNumOf lim).toNat),
      fp = formatPost uid db
        (postUserIdsOf (candidateQuery db (excludeUserIdsOf db cu uid) (limitNumOf lim))) sp) ∧
    (∀ scored : List ScoredPost,
      jsCeil3Tenths
          ((jsSliceTo (limitNumOf lim * 2) (List.insertionSort scoreGT scored)).length) =
        ⌈(0.3 : ℚ) * ((min (2 * (limitNumOf lim).toNat) scored.length : ℕ) : ℚ)⌉₊) := by
  have h0 : ¬ uid = "" := ne_empty_of_getDiscoveryFeed_ok hok
  constructor
  · intro fp hfp
    rw [getDiscoveryFeed_ok_eq db uid lim pg now jsLog rf sr cu h0 hcu] at hok
    have hresp := Except.ok.inj hok
    subst hresp
    obtain ⟨sp, hsp, rfl⟩ := List.mem_map.mp hfp
    refine ⟨sp, ?_, rfl⟩
    have hpool := mem_pool_of_mem_blendStage hsp
    rw [jsSliceTo_of_nonneg _ (by omega)] at hpool
    rw [show 2 * (limitNumOf lim).toNat = (limitNumOf lim * 2).toNat by omega]
    exact hpool
  · intro scored
    rw [jsSliceTo_of_nonneg _ (by omega), List.length_take,
      (List.perm_insertionSort scoreGT scored).length_eq,
      show (limitNumOf lim * 2).toNat = 2 * (limitNumOf lim).toNat by omega,
      jsCeil3Tenths_eq_ceil]

/-- C9 witness: in the witness run the returned post comes from the first
`2 × 20` pool entries, and for an empty scored list the top-slice size is
`⌈0.3 × 0⌉`. -/
theorem c9_witness :
    (∃ sp ∈ (List.insertionSort scoreGT wScored).take (2 * (limitNumOf none).toNat),
      wFp = formatPost "u1" wDb (postUserIdsOf wCands) sp) ∧
    jsCeil3Tenths
        ((jsSliceTo (limitNumOf none * 2) (List.insertionSort scoreGT ([] : List ScoredPost))).length) =
      ⌈(0.3 : ℚ) * ((min (2 * (limitNumOf none).toNat) (List.length ([] : List ScoredPost)) : ℕ) : ℚ)⌉₊ := by
  have h := c9_pool_cap wDb "u1" none none wNow (fun _ => 0) (fun _ => 0) (fun i => i)
    wUser1 wResp (by with_unfolding_all rfl) (by with_unfolding_all rfl)
    (by with_unfolding_all decide)
  exact ⟨h.1 wFp (List.mem_singleton.mpr rfl), h.2 []⟩

/-- C10: the shuffle loop permutes its tail, the verbatim head plus shuffled
tail permutes the pool slice it was built from, and the returned page —
assuming the stored posts carry pairwise-distinct ids — contains no duplicate
post id and only formats of scored candidates. -/
theorem c10_no_duplicates (db : Db) (uid : String) (lim pg : Option Int) (now : ℚ)
    (jsLog : ℚ → ℚ) (rf : ℕ → ℚ) (sr : ℕ → ℕ) (cu : DbUser) (resp : DiscoveryResponse)
    (hcu : db.users.find? (fun u => u.id == uid) = some cu)
    (hok : getDiscoveryFeed db (some uid) lim pg now jsLog rf sr = .ok resp)
    (hnodup : (db.posts.map (fun p => p.id)).Nodup) :
    (∀ l : List ScoredPost, (fisherYates sr l).Perm l) ∧
    (∀ scored : List ScoredPost,
      ((jsSliceTo (limitNumOf lim * 2) (List.insertionSort scoreGT scored)).take
          (jsCeil3Tenths (jsSliceTo (limitNumOf lim * 2) (List.insertionSort scoreGT scored)).length)
        ++ fisherYates sr ((jsSliceTo (limitNumOf lim * 2) (List.insertionSort scoreGT scored)).drop
          (jsCeil3Tenths (jsSliceTo (limitNumOf lim * 2) (List.insertionSort scoreGT scored)).length))).Perm
        (jsSliceTo (limitNumOf lim * 2) (List.insertionSort scoreGT scored))) ∧
    (resp.data.map (fun fp => fp.id)).Nodup ∧
    (∀ fp ∈ resp.data, ∃ sp ∈ scoredPostsOf jsLog db
        (postUserIdsOf (candidateQuery db (excludeUserIdsOf db cu uid) (limitNumOf lim)))
        now rf (candidateQuery db (excludeUserIdsOf db cu uid) (limitNumOf lim)),
      fp = formatPost uid db
        (postUserIdsOf (candidateQuery db (excludeUserIdsOf db cu uid) (limitNumOf lim))) sp) := by
  have h0 : ¬ uid = "" := ne_empty_of_getDiscoveryFeed_ok hok
  rw [getDiscoveryFeed_ok_eq db uid lim pg now jsLog rf sr cu h0 hcu] at hok
  have hresp := Except.ok.inj hok
  subst hresp
  refine ⟨fun l => fisherYates_perm sr l, fun scored => blend_concat_perm sr _ _, ?_, ?_⟩
  · show (((blendStage sr (limitNumOf lim)
        (scoredPostsOf jsLog db
          (postUserIdsOf (candidateQuery db (excludeUserIdsOf db cu uid) (limitNumOf lim)))
          now rf
          (candidateQuery db (excludeUserIdsOf db cu uid) (limitNumOf lim)))).map
          (formatPost uid db
            (postUserIdsOf (candidateQuery db (excludeUserIdsOf db cu uid)
              (limitNumOf lim))))).map (fun fp => fp.id)).Nodup
    rw [data_map_id]
    apply blendStage_map_id_nodup
    rw [scoredPostsOf_map_post_id]
    exact candidateQuery_map_id_nodup hnodup
  · intro fp hfp
    obtain ⟨sp, hsp, rfl⟩ := List.mem_map.mp hfp
    exact ⟨sp, mem_scored_of_mem_blendStage hsp, rfl⟩

/-- C10 witness: the witness page has pairwise-distinct ids and its post is a
formatted scored candidate; the shuffle of the empty tail is a permutation. -/
theorem c10_witness :
    ((fisherYates (fun i => i) ([] : List ScoredPost)).Perm []) ∧
    (wResp.data.map (fun fp => fp.id)).Nodup ∧
    (∃ sp ∈ wScored, wFp = formatPost "u1" wDb (postUserIdsOf wCands) sp) := by
  have h := c10_no_duplicates wDb "u1" none none wNow (fun _ => 0) (fun _ => 0)
    (fun i => i) wUser1 wResp (by with_unfolding_all rfl) (by with_unfolding_all rfl)
    (by with_unfolding_all decide)
  exact ⟨h.1 [], h.2.2.1, h.2.2.2 wFp (List.mem_singleton.mpr rfl)⟩

/-- C1 (amended): the blender sorts the scored candidates descending by
engagement score, but computes the verbatim slice over the pool truncated to
`2 × limit`: the first `topCount = ⌈0.3 × min(n, 2 × limit)⌉` entries of the
returned page are exactly the first `min(topCount, limit)` entries of the
sorted order, and the page length is `min(limit, min(n, 2 × limit))` — the
shuffled tail draws only on the rest of that pool, not on all remaining
candidates. -/
theorem c1_blend_amended (rnd : ℕ → ℕ) (L : Int) (hL : 0 ≤ L)
    (scored : List ScoredPost) :
    (List.insertionSort scoreGT scored).Pairwise
      (fun a b => b.engagementScore ≤ a.engagementScore) ∧
    (blendStage rnd L scored).take (jsCeil3Tenths (min (2 * L.toNat) scored.length)) =
      (List.insertionSort scoreGT scored).take
        (min (jsCeil3Tenths (min (2 * L.toNat) scored.length)) L.toNat) ∧
    (blendStage rnd L scored).length = min L.toNat (min (2 * L.toNat) scored.length) := by
  have hslen : (List.insertionSort scoreGT scored).length = scored.length :=
    (List.perm_insertionSort scoreGT scored).length_eq
  have hpoolLen : ((List.insertionSort scoreGT scored).take ((L * 2).toNat)).length =
      min (2 * L.toNat) scored.length := by
    rw [List.length_take, hslen]
    omega
  have hC := jsCeil3Tenths_le (min (2 * L.toNat) scored.length)
  refine ⟨pairwise_insertionSort_score scored, ?_, ?_⟩
  · rw [blendStage_eq_of_nonneg rnd L hL scored, hpoolLen]
    rw [blend_concat_take_take rnd ((List.insertionSort scoreGT scored).take ((L * 2).toNat))
      (jsCeil3Tenths (min (2 * L.toNat) scored.length)) L.toNat (by rw [hpoolLen]; exact hC)]
    rw [List.take_take]
    congr 1
    omega
  · rw [blendStage_eq_of_nonneg rnd L hL scored, List.length_take, blend_concat_length,
      hpoolLen]

/-- C1 counterexample: nine scored candidates (scores 9, 8, …, 1) and page
limit 3.  The claim predicts a verbatim top slice of `⌈0.3 × 9⌉ = 3` entries,
so the page should start `p1, p2, p3`; the handler actually computes the slice
over the `2 × 3`-entry pool (`⌈0.3 × 6⌉ = 2` verbatim entries) and with the
chosen shuffle draws returns `p1, p2, p6`. -/
theorem c1_claim_false :
    dataIdsOfResult (getDiscoveryFeed c1Db (some "u1") (some 3) (some 1) c1Now
        (fun _ => 0) (fun _ => 0) c1Sr) = ["p1", "p2", "p6"] ∧
    c1Scored.length = 9 ∧
    ⌈(0.3 : ℚ) * (9 : ℕ)⌉₊ = 3 ∧
    ((List.insertionSort scoreGT c1Scored).map (fun sp => sp.post.id)).take 3 =
      ["p1", "p2", "p3"] ∧
    ¬ dataIdsOfResult (getDiscoveryFeed c1Db (some "u1") (some 3) (some 1) c1Now
        (fun _ => 0) (fun _ => 0) c1Sr) = ["p1", "p2", "p3"] := by
  refine ⟨by with_unfolding_all rfl, by with_unfolding_all rfl, ?_, by with_unfolding_all rfl, ?_⟩
  · rw [Nat.ceil_eq_iff (by norm_num)]
    constructor <;> norm_num
  · intro h
    rw [show dataIdsOfResult (getDiscoveryFeed c1Db (some "u1") (some 3) (some 1) c1Now
        (fun _ => 0) (fun _ => 0) c1Sr) = ["p1", "p2", "p6"] from by with_unfolding_all rfl] at h
    exact absurd h (by decide)

/-- C1 amended witness: the blend facts instantiated on the nine-candidate
database with limit 3. -/
theorem c1_witness :
    (List.insertionSort scoreGT c1Scored).Pairwise
      (fun a b => b.engagementScore ≤ a.engagementScore) ∧
    (blendStage c1Sr 3 c1Scored).take
        (jsCeil3Tenths (min (2 * (3 : Int).toNat) c1Scored.length)) =
      (List.insertionSort scoreGT c1Scored).take
        (min (jsCeil3Tenths (min (2 * (3 : Int).toNat) c1Scored.length)) (3 : Int).toNat) ∧
    (blendStage c1Sr 3 c1Scored).length =
      min (3 : Int).toNat (min (2 * (3 : Int).toNat) c1Scored.length) :=
  c1_blend_amended c1Sr 3 (by norm_num) c1Scored

end SongBuddy
